import Mathlib

/-!
Verification of the windowed log batcher in src/ingestor.py of the
incident-commander repository.

The batcher (class Ingestor) consumes a FIFO queue of records inside a single
sequential emit loop (Ingestor.process_stream) and yields batches.  The loop
body is deterministic once the environment is fixed: what the environment
contributes per iteration is (a) records put into the queue by producers via
add_log, (b) an external stop request (app.py assigns ingestor.is_running =
False), (c) the wall-clock values returned by the time.time() calls, and
(d) how the awaited queue read resolves (a record, an asyncio.TimeoutError,
or some other exception).  We embed the loop shallowly: a StepEnv value
records those environment choices for one iteration, stepIter is the loop
body translated line by line from process_stream, and runLoop folds stepIter
over a list of StepEnv values, checking the loop condition of line 32 before
each iteration and performing the final drain (lines 94-96) when the loop
exits.  runLoop returns none when the provided environment steps are
exhausted while the loop is still running, and some output when the loop
exited and drained within them.
-/

namespace IncidentIngestor

/-- Configuration of the batcher: BATCH_SIZE_LIMIT and BATCH_TIME_LIMIT of
src/ingestor.py lines 11-12 (the tests override them per instance, so we keep
them as parameters). -/
structure Config where
  BATCH_SIZE_LIMIT : Nat
  BATCH_TIME_LIMIT : ℚ
deriving DecidableEq

/-- The hardcoded class defaults: 100 items or 5.0 seconds. -/
def defaultConfig : Config := ⟨100, 5⟩

/-- The Ingestor object state outside the emit loop: the asyncio.Queue
(modelled as a FIFO list) and the is_running flag (lines 14-16). -/
structure Ingestor (α : Type) where
  queue : List α
  is_running : Bool
deriving DecidableEq

/-- Ingestor.__init__ (lines 14-16): empty queue, is_running = False. -/
def Ingestor.init {α : Type} : Ingestor α := ⟨[], false⟩

/-- Ingestor.add_log (lines 18-22): put one record at the tail of the queue. -/
def Ingestor.add_log {α : Type} (ing : Ingestor α) (log : α) : Ingestor α :=
  ⟨ing.queue ++ [log], ing.is_running⟩

/-- The external stop request: app.py line 128 assigns
ingestor.is_running = False (the spec calls this operation stop()). -/
def Ingestor.stop {α : Type} (ing : Ingestor α) : Ingestor α :=
  ⟨ing.queue, false⟩

/-- How the awaited queue read of one loop iteration resolved:
a record was obtained (lines 47/55), asyncio.TimeoutError was raised
(line 65), or some other exception was raised (line 80). -/
inductive WaitKind
  | got
  | timedOut
  | errored
deriving DecidableEq

/-- Why a batch was yielded: the size check after an append (lines 60-63),
the TimeoutError handler (lines 67-70), the explicit re-check of the time
limit (lines 86-89), or the final drain after the loop (lines 94-96). -/
inductive EmitReason
  | size
  | timeLimit
  | postCheck
  | drain
deriving DecidableEq

/-- One yielded batch together with the wall-clock time of the emission,
the value last_flush_time held just before the emission, and which code
path emitted it. -/
structure EmitEvent (α : Type) where
  batch : List α
  time : ℚ
  flushBefore : ℚ
  reason : EmitReason
deriving DecidableEq

/-- The environment choices of one iteration of the while loop:
puts     - records enqueued by producers during this iteration's wait,
stop     - whether is_running was externally set to False during this
           iteration,
tTop     - value of time.time() at line 34,
tEmit    - value of time.time() used by the flush inside the try/except
           (lines 63/70),
tPost    - value of time.time() at the explicit re-check (lines 86/89),
wait     - how the awaited queue read resolved. -/
structure StepEnv (α : Type) where
  puts : List α
  stop : Bool
  tTop : ℚ
  tEmit : ℚ
  tPost : ℚ
  wait : WaitKind
deriving DecidableEq

/-- The loop-local state of process_stream: the is_running flag as visible
at lines 32/91, the local variable batch (the buffer), the queue contents,
and last_flush_time. -/
structure LoopState (α : Type) where
  running : Bool
  batch : List α
  queue : List α
  lastFlush : ℚ
deriving DecidableEq

/-- Line 35: time_remaining = max(0.0, BATCH_TIME_LIMIT - (now - last_flush_time)). -/
def timeRemaining (cfg : Config) (lastFlush tTop : ℚ) : ℚ :=
  max 0 (cfg.BATCH_TIME_LIMIT - (tTop - lastFlush))

/-- The try/except block of lines 37-83, given the queue contents after this
iteration's puts.  Returns (buffer, queue, last_flush_time, yields):
a got on a non-empty queue appends the head to the buffer and flushes on the
size check (lines 45-63); a got on an empty queue can only resolve as a
timeout, and a TimeoutError flushes a non-empty buffer (lines 65-79); any
other exception is swallowed (lines 80-83). -/
def tryBlock {α : Type} (cfg : Config) (s : LoopState α) (e : StepEnv α)
    (queue1 : List α) : List α × List α × ℚ × List (EmitEvent α) :=
  match e.wait, queue1 with
  | .got, log :: restQ =>
      let b := s.batch ++ [log]
      if cfg.BATCH_SIZE_LIMIT ≤ b.length then
        ([], restQ, e.tEmit, [⟨b, e.tEmit, s.lastFlush, .size⟩])
      else
        (b, restQ, s.lastFlush, [])
  | .got, [] =>
      if 0 < s.batch.length then
        ([], [], e.tEmit, [⟨s.batch, e.tEmit, s.lastFlush, .timeLimit⟩])
      else
        (s.batch, [], s.lastFlush, [])
  | .timedOut, _ =>
      if 0 < s.batch.length then
        ([], queue1, e.tEmit, [⟨s.batch, e.tEmit, s.lastFlush, .timeLimit⟩])
      else
        (s.batch, queue1, s.lastFlush, [])
  | .errored, _ =>
      (s.batch, queue1, s.lastFlush, [])

/-- The explicit time-limit re-check of lines 86-89, applied to the
(buffer, queue, last_flush_time, yields) result t of the try/except block:
if the buffer is non-empty and the time limit has elapsed, flush it. -/
def postTimeCheck {α : Type} (cfg : Config) (running1 : Bool) (tPost : ℚ)
    (t : List α × List α × ℚ × List (EmitEvent α)) :
    LoopState α × List (EmitEvent α) :=
  if 0 < t.1.length ∧ cfg.BATCH_TIME_LIMIT ≤ tPost - t.2.2.1 then
    (⟨running1, [], t.2.1, tPost⟩,
      t.2.2.2 ++ [⟨t.1, tPost, t.2.2.1, .postCheck⟩])
  else
    (⟨running1, t.1, t.2.1, t.2.2.1⟩, t.2.2.2)

/-- One iteration of the while loop body (lines 33-89): apply the
environment's stop request and puts, run the try/except block, then the
explicit time-limit re-check of lines 86-89. -/
def stepIter {α : Type} (cfg : Config) (s : LoopState α) (e : StepEnv α) :
    LoopState α × List (EmitEvent α) :=
  postTimeCheck cfg (s.running && !e.stop) e.tPost
    (tryBlock cfg s e (s.queue ++ e.puts))

/-- The loop condition of line 32: while is_running or not queue.empty(). -/
def loopCond {α : Type} (s : LoopState α) : Bool :=
  s.running || !s.queue.isEmpty

/-- The final drain of lines 94-96: if batch: yield batch.  tEnd is the
wall-clock time at which the generator finalizes. -/
def drainEvents {α : Type} (s : LoopState α) (tEnd : ℚ) : List (EmitEvent α) :=
  if 0 < s.batch.length then [⟨s.batch, tEnd, s.lastFlush, .drain⟩] else []

/-- The whole while loop of lines 32-96, driven by a list of per-iteration
environment choices.  Returns some output when the loop exited (condition of
line 32 false, equivalently the break of lines 91-92) and drained within the
given steps, and none when the environment steps are exhausted while the
loop condition still holds (the loop is still running). -/
def runLoop {α : Type} (cfg : Config) (tEnd : ℚ) :
    LoopState α → List (StepEnv α) → Option (List (EmitEvent α))
  | s, [] =>
      if loopCond s then none else some (drainEvents s tEnd)
  | s, e :: rest =>
      if loopCond s then
        (runLoop cfg tEnd (stepIter cfg s e).1 rest).map
          (fun out => (stepIter cfg s e).2 ++ out)
      else
        some (drainEvents s tEnd)

/-- Ingestor.process_stream entry (lines 24-30): is_running is set to True
unconditionally, the buffer starts empty, last_flush_time starts at t0, and
the queue holds whatever was enqueued before the loop started. -/
def processStream {α : Type} (cfg : Config) (ing : Ingestor α) (t0 tEnd : ℚ)
    (envs : List (StepEnv α)) : Option (List (EmitEvent α)) :=
  runLoop cfg tEnd ⟨true, [], ing.queue, t0⟩ envs

/-- Whether this iteration's queue read can only have resolved by timeout:
either a TimeoutError was raised, or a record was awaited on an empty queue
(with no put arriving), which in asyncio.wait_for ends in a TimeoutError. -/
def resolvesToTimeout {α : Type} (s : LoopState α) (e : StepEnv α) : Prop :=
  e.wait = .timedOut ∨ (e.wait = .got ∧ s.queue ++ e.puts = [])

/-- Realism constraint on an environment trace: asyncio.wait_for raises its
TimeoutError only once the full computed time_remaining has elapsed from the
start of the wait, so when the read of an iteration with a non-empty buffer
resolves by timeout, the flush time tEmit is at least tTop + time_remaining. -/
def WellTimed {α : Type} (cfg : Config) :
    LoopState α → List (StepEnv α) → Prop
  | _, [] => True
  | s, e :: rest =>
      (resolvesToTimeout s e → 0 < s.batch.length →
        e.tTop + timeRemaining cfg s.lastFlush e.tTop ≤ e.tEmit) ∧
      WellTimed cfg (stepIter cfg s e).1 rest

/-- The emission condition worded from the specification (Section 3
invariant): a batch is emitted if and only if len(buffer) >= maxBatchSize or
(now - lastFlushTime) >= maxWindowDuration and len(buffer) > 0, read at the
instant of the emission. -/
def emitCond {α : Type} (cfg : Config) (ev : EmitEvent α) : Prop :=
  cfg.BATCH_SIZE_LIMIT ≤ ev.batch.length ∨
    (cfg.BATCH_TIME_LIMIT ≤ ev.time - ev.flushBefore ∧ 0 < ev.batch.length)

/-- Environment step used by the size-trigger scenario: a record is obtained
instantly (all clocks at 0) while a stop request is pending. -/
def gotStopEnv {α : Type} : StepEnv α := ⟨[], true, 0, 0, 0, .got⟩

/-- Environment step in which the queue read fails with an exception other
than TimeoutError, with no put and no stop request, all clocks at 0. -/
def erroredEnv {α : Type} : StepEnv α := ⟨[], false, 0, 0, 0, .errored⟩

/-! ### Lemmas about a single loop iteration -/

theorem stepIter_running {α : Type} (cfg : Config) (s : LoopState α)
    (e : StepEnv α) : (stepIter cfg s e).1.running = (s.running && !e.stop) := by
  unfold stepIter postTimeCheck
  split <;> rfl

theorem stepIter_events_pos {α : Type} (cfg : Config) (s : LoopState α)
    (e : StepEnv α) : ∀ ev ∈ (stepIter cfg s e).2, 0 < ev.batch.length := by
  rcases e with ⟨p, st, t1, t2, t3, w⟩
  unfold stepIter postTimeCheck tryBlock
  cases w <;> rcases hq : s.queue ++ p with _ | ⟨x, q'⟩ <;>
    dsimp only <;> (try split) <;> (try split) <;>
    simp_all

theorem stepIter_batch_lt {α : Type} (cfg : Config) (s : LoopState α)
    (e : StepEnv α) (hB : 0 < cfg.BATCH_SIZE_LIMIT)
    (h : s.batch.length < cfg.BATCH_SIZE_LIMIT) :
    (stepIter cfg s e).1.batch.length < cfg.BATCH_SIZE_LIMIT := by
  rcases e with ⟨p, st, t1, t2, t3, w⟩
  unfold stepIter postTimeCheck tryBlock
  cases w <;> rcases hq : s.queue ++ p with _ | ⟨x, q'⟩ <;>
    dsimp only <;> (try split) <;> (try split) <;>
    simp_all

theorem stepIter_events_le {α : Type} (cfg : Config) (s : LoopState α)
    (e : StepEnv α) (h : s.batch.length < cfg.BATCH_SIZE_LIMIT) :
    ∀ ev ∈ (stepIter cfg s e).2, ev.batch.length ≤ cfg.BATCH_SIZE_LIMIT := by
  rcases e with ⟨p, st, t1, t2, t3, w⟩
  unfold stepIter postTimeCheck tryBlock
  cases w <;> rcases hq : s.queue ++ p with _ | ⟨x, q'⟩ <;>
    dsimp only <;> (try split) <;> (try split) <;>
    simp_all <;> omega

theorem stepIter_join {α : Type} (cfg : Config) (s : LoopState α)
    (e : StepEnv α) :
    ((stepIter cfg s e).2.map (fun ev => ev.batch)).flatten ++
        (stepIter cfg s e).1.batch ++ (stepIter cfg s e).1.queue =
      s.batch ++ s.queue ++ e.puts := by
  rcases e with ⟨p, st, t1, t2, t3, w⟩
  unfold stepIter postTimeCheck tryBlock
  cases w <;> rcases hq : s.queue ++ p with _ | ⟨x, q'⟩ <;>
    dsimp only <;> (try split) <;> (try split) <;>
    simp_all

theorem postTimeCheck_events {α : Type} (cfg : Config) (r1 : Bool) (tPost : ℚ)
    (t : List α × List α × ℚ × List (EmitEvent α)) :
    ∀ ev ∈ (postTimeCheck cfg r1 tPost t).2,
      ev ∈ t.2.2.2 ∨ emitCond cfg ev := by
  unfold postTimeCheck
  split
  case isTrue h =>
    intro ev hev
    rcases List.mem_append.mp hev with h1 | h1
    · exact Or.inl h1
    · have hv : ev = ⟨t.1, tPost, t.2.2.1, .postCheck⟩ := by simpa using h1
      subst hv
      exact Or.inr (Or.inr ⟨h.2, h.1⟩)
  case isFalse h =>
    intro ev hev
    exact Or.inl hev

theorem tryBlock_events_cond {α : Type} (cfg : Config) (s : LoopState α)
    (e : StepEnv α)
    (hT : resolvesToTimeout s e → 0 < s.batch.length →
      e.tTop + timeRemaining cfg s.lastFlush e.tTop ≤ e.tEmit) :
    ∀ ev ∈ (tryBlock cfg s e (s.queue ++ e.puts)).2.2.2, emitCond cfg ev := by
  have hmax : cfg.BATCH_TIME_LIMIT - (e.tTop - s.lastFlush) ≤
      timeRemaining cfg s.lastFlush e.tTop := le_max_right _ _
  intro ev hev
  rcases hw : e.wait with _ | _ | _ <;>
    rcases hq : s.queue ++ e.puts with _ | ⟨x, q'⟩ <;>
    rw [tryBlock.eq_def, hw, hq] at hev <;> (try dsimp only at hev)
  · rcases hp : decide (0 < s.batch.length) with _ | _
    · rw [if_neg (by simpa using hp)] at hev
      simp at hev
    · rw [if_pos (by simpa using hp)] at hev
      have hv : ev = ⟨s.batch, e.tEmit, s.lastFlush, .timeLimit⟩ := by
        simpa using hev
      subst hv
      have hle := hT (Or.inr ⟨hw, hq⟩) (by simpa using hp)
      exact Or.inr ⟨by dsimp only; linarith, by simpa using hp⟩
  · rcases hs : decide (cfg.BATCH_SIZE_LIMIT ≤ (s.batch ++ [x]).length)
      with _ | _
    · rw [if_neg (by simpa using hs)] at hev
      simp at hev
    · rw [if_pos (by simpa using hs)] at hev
      have hv : ev = ⟨s.batch ++ [x], e.tEmit, s.lastFlush, .size⟩ := by
        simpa using hev
      subst hv
      exact Or.inl (by simpa using hs)
  · rcases hp : decide (0 < s.batch.length) with _ | _
    · rw [if_neg (by simpa using hp)] at hev
      simp at hev
    · rw [if_pos (by simpa using hp)] at hev
      have hv : ev = ⟨s.batch, e.tEmit, s.lastFlush, .timeLimit⟩ := by
        simpa using hev
      subst hv
      have hle := hT (Or.inl hw) (by simpa using hp)
      exact Or.inr ⟨by dsimp only; linarith, by simpa using hp⟩
  · rcases hp : decide (0 < s.batch.length) with _ | _
    · rw [if_neg (by simpa using hp)] at hev
      simp at hev
    · rw [if_pos (by simpa using hp)] at hev
      have hv : ev = ⟨s.batch, e.tEmit, s.lastFlush, .timeLimit⟩ := by
        simpa using hev
      subst hv
      have hle := hT (Or.inl hw) (by simpa using hp)
      exact Or.inr ⟨by dsimp only; linarith, by simpa using hp⟩
  · simp at hev
  · simp at hev

theorem stepIter_emitCond {α : Type} (cfg : Config) (s : LoopState α)
    (e : StepEnv α)
    (hT : resolvesToTimeout s e → 0 < s.batch.length →
      e.tTop + timeRemaining cfg s.lastFlush e.tTop ≤ e.tEmit) :
    ∀ ev ∈ (stepIter cfg s e).2, emitCond cfg ev := by
  intro ev hev
  rcases postTimeCheck_events cfg (s.running && !e.stop) e.tPost
      (tryBlock cfg s e (s.queue ++ e.puts)) ev hev with h | h
  · exact tryBlock_events_cond cfg s e hT ev h
  · exact h

theorem stepIter_no_pending {α : Type} (cfg : Config) (s : LoopState α)
    (e : StepEnv α) (h : 0 < (stepIter cfg s e).1.batch.length) :
    e.tPost - (stepIter cfg s e).1.lastFlush < cfg.BATCH_TIME_LIMIT := by
  unfold stepIter postTimeCheck at h ⊢
  split at h
  case isTrue hc =>
    simp at h
  case isFalse hc =>
    rw [if_neg hc]
    dsimp only at h ⊢
    by_contra hle
    exact hc ⟨h, by linarith⟩

/-! ### Lemmas about the whole loop -/

theorem loopCond_eq_false {α : Type} (s : LoopState α) :
    loopCond s = false ↔ s.running = false ∧ s.queue = [] := by
  cases hq : s.queue <;> cases hr : s.running <;> simp [loopCond, hq, hr]

theorem runLoop_exit {α : Type} (cfg : Config) (tEnd : ℚ) (s : LoopState α)
    (envs : List (StepEnv α)) (h : loopCond s = false) :
    runLoop cfg tEnd s envs = some (drainEvents s tEnd) := by
  cases envs <;> simp [runLoop, h]

theorem runLoop_nil_run {α : Type} (cfg : Config) (tEnd : ℚ) (s : LoopState α)
    (h : loopCond s = true) : runLoop cfg tEnd s [] = none := by
  simp [runLoop, h]

theorem runLoop_cons_run {α : Type} (cfg : Config) (tEnd : ℚ) (s : LoopState α)
    (e : StepEnv α) (rest : List (StepEnv α)) (h : loopCond s = true) :
    runLoop cfg tEnd s (e :: rest) =
      (runLoop cfg tEnd (stepIter cfg s e).1 rest).map
        (fun out => (stepIter cfg s e).2 ++ out) := by
  simp [runLoop, h]

theorem drainEvents_mem {α : Type} (s : LoopState α) (tEnd : ℚ) :
    ∀ ev ∈ drainEvents s tEnd,
      ev = ⟨s.batch, tEnd, s.lastFlush, .drain⟩ ∧ 0 < s.batch.length := by
  unfold drainEvents
  split <;> simp_all

theorem runLoop_some_exit {α : Type} {cfg : Config} {tEnd : ℚ}
    {s : LoopState α} {envs : List (StepEnv α)} {out : List (EmitEvent α)}
    (hc : loopCond s = false) (h : runLoop cfg tEnd s envs = some out) :
    out = drainEvents s tEnd := by
  rw [runLoop_exit cfg tEnd s envs hc] at h
  exact (Option.some.inj h).symm

theorem runLoop_events_pos {α : Type} (cfg : Config) (tEnd : ℚ) :
    ∀ (envs : List (StepEnv α)) (s : LoopState α) (out : List (EmitEvent α)),
      runLoop cfg tEnd s envs = some out → ∀ ev ∈ out, 0 < ev.batch.length := by
  intro envs
  induction envs with
  | nil =>
    intro s out h ev hev
    rcases hc : loopCond s with _ | _
    · rw [runLoop_some_exit hc h] at hev
      rw [(drainEvents_mem s tEnd ev hev).1]
      exact (drainEvents_mem s tEnd ev hev).2
    · rw [runLoop_nil_run cfg tEnd s hc] at h
      exact absurd h (by simp)
  | cons e rest ih =>
    intro s out h ev hev
    rcases hc : loopCond s with _ | _
    · rw [runLoop_some_exit hc h] at hev
      rw [(drainEvents_mem s tEnd ev hev).1]
      exact (drainEvents_mem s tEnd ev hev).2
    · rw [runLoop_cons_run cfg tEnd s e rest hc] at h
      rcases Option.map_eq_some'.mp h with ⟨out', h1, h2⟩
      subst h2
      rcases List.mem_append.mp hev with h3 | h3
      · exact stepIter_events_pos cfg s e ev h3
      · exact ih (stepIter cfg s e).1 out' h1 ev h3

theorem runLoop_events_le {α : Type} (cfg : Config) (tEnd : ℚ)
    (hB : 0 < cfg.BATCH_SIZE_LIMIT) :
    ∀ (envs : List (StepEnv α)) (s : LoopState α) (out : List (EmitEvent α)),
      s.batch.length < cfg.BATCH_SIZE_LIMIT →
      runLoop cfg tEnd s envs = some out →
      ∀ ev ∈ out, ev.batch.length ≤ cfg.BATCH_SIZE_LIMIT := by
  intro envs
  induction envs with
  | nil =>
    intro s out hs h ev hev
    rcases hc : loopCond s with _ | _
    · rw [runLoop_some_exit hc h] at hev
      rw [(drainEvents_mem s tEnd ev hev).1]
      exact le_of_lt hs
    · rw [runLoop_nil_run cfg tEnd s hc] at h
      exact absurd h (by simp)
  | cons e rest ih =>
    intro s out hs h ev hev
    rcases hc : loopCond s with _ | _
    · rw [runLoop_some_exit hc h] at hev
      rw [(drainEvents_mem s tEnd ev hev).1]
      exact le_of_lt hs
    · rw [runLoop_cons_run cfg tEnd s e rest hc] at h
      rcases Option.map_eq_some'.mp h with ⟨out', h1, h2⟩
      subst h2
      rcases List.mem_append.mp hev with h3 | h3
      · exact stepIter_events_le cfg s e hs ev h3
      · exact ih (stepIter cfg s e).1 out'
          (stepIter_batch_lt cfg s e hB hs) h1 ev h3

theorem runLoop_flatten {α : Type} (cfg : Config) (tEnd : ℚ) :
    ∀ (envs : List (StepEnv α)) (s : LoopState α) (out : List (EmitEvent α)),
      runLoop cfg tEnd s envs = some out →
      ∃ used rest, envs = used ++ rest ∧
        (out.map (fun ev => ev.batch)).flatten =
          s.batch ++ s.queue ++ (used.map (fun e => e.puts)).flatten := by
  intro envs
  induction envs with
  | nil =>
    intro s out h
    rcases hc : loopCond s with _ | _
    · refine ⟨[], [], rfl, ?_⟩
      rcases (loopCond_eq_false s).mp hc with ⟨hr, hq⟩
      rw [runLoop_some_exit hc h]
      unfold drainEvents
      split <;> simp_all
    · rw [runLoop_nil_run cfg tEnd s hc] at h
      exact absurd h (by simp)
  | cons e rest ih =>
    intro s out h
    rcases hc : loopCond s with _ | _
    · refine ⟨[], e :: rest, rfl, ?_⟩
      rcases (loopCond_eq_false s).mp hc with ⟨hr, hq⟩
      rw [runLoop_some_exit hc h]
      unfold drainEvents
      split <;> simp_all
    · rw [runLoop_cons_run cfg tEnd s e rest hc] at h
      rcases Option.map_eq_some'.mp h with ⟨out', h1, h2⟩
      subst h2
      rcases ih (stepIter cfg s e).1 out' h1 with ⟨used', rest', hsplit, hjoin⟩
      refine ⟨e :: used', rest', by simp [hsplit], ?_⟩
      have hstep := stepIter_join cfg s e
      calc ((((stepIter cfg s e).2 ++ out').map fun ev => ev.batch)).flatten
          = (((stepIter cfg s e).2.map fun ev => ev.batch)).flatten ++
              ((out'.map fun ev => ev.batch)).flatten := by
            simp
        _ = (((stepIter cfg s e).2.map fun ev => ev.batch)).flatten ++
              ((stepIter cfg s e).1.batch ++ (stepIter cfg s e).1.queue ++
                ((used'.map fun e => e.puts)).flatten) := by
            rw [hjoin]
        _ = s.batch ++ s.queue ++ e.puts ++
              ((used'.map fun e => e.puts)).flatten := by
            rw [← hstep]
            simp [List.append_assoc]
        _ = s.batch ++ s.queue ++ (((e :: used').map fun e => e.puts)).flatten := by
            simp [List.append_assoc]

theorem runLoop_emitCond {α : Type} (cfg : Config) (tEnd : ℚ) :
    ∀ (envs : List (StepEnv α)) (s : LoopState α) (out : List (EmitEvent α)),
      WellTimed cfg s envs → runLoop cfg tEnd s envs = some out →
      ∀ ev ∈ out, ev.reason ≠ .drain → emitCond cfg ev := by
  intro envs
  induction envs with
  | nil =>
    intro s out _ h ev hev hr
    rcases hc : loopCond s with _ | _
    · rw [runLoop_some_exit hc h] at hev
      rw [(drainEvents_mem s tEnd ev hev).1] at hr
      exact absurd rfl hr
    · rw [runLoop_nil_run cfg tEnd s hc] at h
      exact absurd h (by simp)
  | cons e rest ih =>
    intro s out hwt h ev hev hr
    rcases hc : loopCond s with _ | _
    · rw [runLoop_some_exit hc h] at hev
      rw [(drainEvents_mem s tEnd ev hev).1] at hr
      exact absurd rfl hr
    · rw [runLoop_cons_run cfg tEnd s e rest hc] at h
      rcases Option.map_eq_some'.mp h with ⟨out', h1, h2⟩
      subst h2
      rcases List.mem_append.mp hev with h3 | h3
      · exact stepIter_emitCond cfg s e hwt.1 ev h3
      · exact ih (stepIter cfg s e).1 out' hwt.2 h1 ev h3 hr

theorem runLoop_no_stop_none {α : Type} (cfg : Config) (tEnd : ℚ) :
    ∀ (envs : List (StepEnv α)) (s : LoopState α), s.running = true →
      (∀ e ∈ envs, e.stop = false) → runLoop cfg tEnd s envs = none := by
  intro envs
  induction envs with
  | nil =>
    intro s hs _
    exact runLoop_nil_run cfg tEnd s (by simp [loopCond, hs])
  | cons e rest ih =>
    intro s hs hstop
    rw [runLoop_cons_run cfg tEnd s e rest (by simp [loopCond, hs])]
    rw [ih (stepIter cfg s e).1 ?_ fun x hx => hstop x (List.mem_cons_of_mem e hx)]
    · rfl
    · rw [stepIter_running cfg s e, hs, hstop e (List.mem_cons_self e rest)]
      rfl

/-! ### The fast-producer scenario: records obtained instantly, stop pending -/

theorem stepIter_got_small {α : Type} (cfg : Config)
    (hW : 0 < cfg.BATCH_TIME_LIMIT) (r : Bool) (b q : List α) (x : α)
    (hlen : b.length + 1 < cfg.BATCH_SIZE_LIMIT) :
    stepIter cfg (⟨r, b, x :: q, 0⟩ : LoopState α) gotStopEnv =
      (⟨false, b ++ [x], q, 0⟩, []) := by
  have hsize : ¬(cfg.BATCH_SIZE_LIMIT ≤ b.length + 1) := by omega
  have hpost : ¬(cfg.BATCH_TIME_LIMIT ≤ (0:ℚ)) := by linarith
  simp [stepIter, postTimeCheck, tryBlock, gotStopEnv, hsize, hpost]

theorem stepIter_got_full {α : Type} (cfg : Config)
    (r : Bool) (b q : List α) (x : α)
    (hlen : cfg.BATCH_SIZE_LIMIT ≤ b.length + 1) :
    stepIter cfg (⟨r, b, x :: q, 0⟩ : LoopState α) gotStopEnv =
      (⟨false, [], q, 0⟩, [⟨b ++ [x], 0, 0, .size⟩]) := by
  simp [stepIter, postTimeCheck, tryBlock, gotStopEnv, hlen]

theorem runLoop_fill {α : Type} (cfg : Config)
    (hW : 0 < cfg.BATCH_TIME_LIMIT) (tEnd : ℚ) :
    ∀ (q b : List α), b.length + q.length < cfg.BATCH_SIZE_LIMIT →
      0 < (b ++ q).length →
      runLoop cfg tEnd (⟨false, b, q, 0⟩ : LoopState α)
          (List.replicate q.length gotStopEnv) =
        some [⟨b ++ q, tEnd, 0, .drain⟩] := by
  intro q
  induction q with
  | nil =>
    intro b hlt hpos
    rw [List.length_nil, List.replicate_zero,
      runLoop_exit cfg tEnd _ _ (by simp [loopCond])]
    unfold drainEvents
    rw [if_pos (by simpa using hpos)]
    simp
  | cons x q' ih =>
    intro b hlt hpos
    have hc : loopCond (⟨false, b, x :: q', 0⟩ : LoopState α) = true := by
      simp [loopCond]
    have hlen : b.length + 1 < cfg.BATCH_SIZE_LIMIT := by
      simp only [List.length_cons] at hlt
      omega
    rw [List.length_cons, List.replicate_succ,
      runLoop_cons_run cfg tEnd _ _ _ hc,
      stepIter_got_small cfg hW false b q' x hlen,
      ih (b ++ [x]) (by simp only [List.length_append, List.length_cons,
        List.length_nil] at hlt ⊢; omega) (by simp)]
    simp

theorem runLoop_size_then_fill {α : Type} (cfg : Config)
    (hW : 0 < cfg.BATCH_TIME_LIMIT) (tEnd : ℚ) :
    ∀ (q : List α), q ≠ [] → ∀ (b rest : List α) (r : Bool),
      b.length + q.length = cfg.BATCH_SIZE_LIMIT →
      0 < rest.length → rest.length < cfg.BATCH_SIZE_LIMIT →
      runLoop cfg tEnd (⟨r, b, q ++ rest, 0⟩ : LoopState α)
          (List.replicate (q.length + rest.length) gotStopEnv) =
        some [⟨b ++ q, 0, 0, .size⟩, ⟨rest, tEnd, 0, .drain⟩] := by
  intro q
  induction q with
  | nil => intro h; exact absurd rfl h
  | cons x q' ih =>
    intro _ b rest r hsum hp hlt
    have hc : loopCond (⟨r, b, (x :: q') ++ rest, 0⟩ : LoopState α) = true := by
      simp [loopCond]
    by_cases hq' : q' = []
    · subst hq'
      have hfull : cfg.BATCH_SIZE_LIMIT ≤ b.length + 1 := by
        simp only [List.length_cons, List.length_nil] at hsum
        omega
      have hcount : (x :: ([] : List α)).length + rest.length =
          rest.length + 1 := by
        simp only [List.length_cons, List.length_nil]
        omega
      rw [hcount, List.replicate_succ, runLoop_cons_run cfg tEnd _ _ _ hc]
      have hstep := stepIter_got_full cfg r b ([] ++ rest) x hfull
      rw [List.nil_append] at hstep
      rw [List.cons_append, List.nil_append] at hc ⊢
      rw [hstep,
        runLoop_fill cfg hW tEnd rest [] (by simpa using hlt) (by simpa using hp)]
      simp
    · have hsmall : b.length + 1 < cfg.BATCH_SIZE_LIMIT := by
        have : 0 < q'.length := List.length_pos.mpr hq'
        simp only [List.length_cons] at hsum
        omega
      have hcount : (x :: q').length + rest.length =
          (q'.length + rest.length) + 1 := by
        simp only [List.length_cons]
        omega
      rw [hcount, List.replicate_succ, runLoop_cons_run cfg tEnd _ _ _ hc]
      have hstep := stepIter_got_small cfg hW r b (q' ++ rest) x hsmall
      rw [List.cons_append] at hc ⊢
      rw [hstep,
        ih hq' (b ++ [x]) rest false (by simp only [List.length_append,
          List.length_cons, List.length_nil] at hsum ⊢; omega) hp hlt]
      simp

/-! ### The claims -/

/-- Claim C3: in every execution of process_stream, no emitted batch has zero
records - every batch yielded (size-triggered, time-triggered, or final
drain) contains at least one record, and an empty buffer never produces an
empty batch on timeout. -/
theorem claim3_no_empty_batches {α : Type} (cfg : Config) (tEnd : ℚ)
    (envs : List (StepEnv α)) (s : LoopState α) (out : List (EmitEvent α))
    (h : runLoop cfg tEnd s envs = some out) :
    ∀ ev ∈ out, 0 < ev.batch.length :=
  runLoop_events_pos cfg tEnd envs s out h

/-- Witness for C3 on a concrete run: one record obtained, stop requested,
final drain emits the non-empty batch. -/
theorem claim3_witness :
    0 < ((⟨[4], 1, 0, .drain⟩ : EmitEvent ℕ)).batch.length :=
  claim3_no_empty_batches defaultConfig 1 [⟨[], true, 0, 0, 0, .got⟩]
    ⟨true, [], [4], 0⟩ [⟨[4], 1, 0, .drain⟩]
    (by norm_num [runLoop, stepIter, postTimeCheck, tryBlock, loopCond,
      drainEvents, defaultConfig])
    ⟨[4], 1, 0, .drain⟩ (List.mem_singleton.mpr rfl)

/-- Claim C6: order preservation - the concatenation of all emitted batches
equals, in order, the initial buffer, then the initial queue, then every
record enqueued via add_log during the consumed iterations.  Hence records
keep FIFO order from ingestion to batch placement: for records r1 ingested
before r2, r1's batch index is at most r2's, and within a batch r1 precedes
r2. -/
theorem claim6_order_preservation {α : Type} (cfg : Config) (tEnd : ℚ)
    (envs : List (StepEnv α)) (s : LoopState α) (out : List (EmitEvent α))
    (h : runLoop cfg tEnd s envs = some out) :
    ∃ used rest, envs = used ++ rest ∧
      (out.map (fun ev => ev.batch)).flatten =
        s.batch ++ s.queue ++ (used.map (fun e => e.puts)).flatten :=
  runLoop_flatten cfg tEnd envs s out h

/-- Witness for C6 on a concrete run with one queued record. -/
theorem claim6_witness :
    ∃ used rest, ([⟨[], true, 0, 0, 0, .got⟩] : List (StepEnv ℕ)) = used ++ rest ∧
      (([⟨[8], 1, 0, .drain⟩] : List (EmitEvent ℕ)).map (fun ev => ev.batch)).flatten =
        [] ++ [8] ++ (used.map (fun e => e.puts)).flatten :=
  claim6_order_preservation defaultConfig 1 [⟨[], true, 0, 0, 0, .got⟩]
    ⟨true, [], [8], 0⟩ [⟨[8], 1, 0, .drain⟩]
    (by norm_num [runLoop, stepIter, postTimeCheck, tryBlock, loopCond,
      drainEvents, defaultConfig])

/-- Claim C7: if the buffer is below BATCH_SIZE_LIMIT entering an iteration,
it is again below BATCH_SIZE_LIMIT at the end of the iteration (the limit is
reached only transiently, at the size check right after an append), and
consequently every batch emitted by a run starting below the limit has at
most BATCH_SIZE_LIMIT records. -/
theorem claim7_buffer_bound {α : Type} (cfg : Config)
    (hB : 0 < cfg.BATCH_SIZE_LIMIT) :
    (∀ (s : LoopState α) (e : StepEnv α),
        s.batch.length < cfg.BATCH_SIZE_LIMIT →
        (stepIter cfg s e).1.batch.length < cfg.BATCH_SIZE_LIMIT) ∧
    (∀ (tEnd : ℚ) (envs : List (StepEnv α)) (s : LoopState α)
        (out : List (EmitEvent α)),
        s.batch.length < cfg.BATCH_SIZE_LIMIT →
        runLoop cfg tEnd s envs = some out →
        ∀ ev ∈ out, ev.batch.length ≤ cfg.BATCH_SIZE_LIMIT) :=
  ⟨fun s e h => stepIter_batch_lt cfg s e hB h,
   fun tEnd envs s out hs h => runLoop_events_le cfg tEnd hB envs s out hs h⟩

/-- Witness for C7 on a concrete run: the drained batch respects the size
bound. -/
theorem claim7_witness :
    ((⟨[6], 1, 0, .drain⟩ : EmitEvent ℕ)).batch.length ≤
      defaultConfig.BATCH_SIZE_LIMIT :=
  (claim7_buffer_bound defaultConfig (by norm_num [defaultConfig])).2 1
    [⟨[], true, 0, 0, 0, .got⟩] ⟨true, [], [6], 0⟩ [⟨[6], 1, 0, .drain⟩]
    (by simp [defaultConfig])
    (by norm_num [runLoop, stepIter, postTimeCheck, tryBlock, loopCond,
      drainEvents, defaultConfig])
    ⟨[6], 1, 0, .drain⟩ (List.mem_singleton.mpr rfl)

/-- Claim C8: requesting stop repeatedly (setting is_running to False again)
has the same effect as requesting it once, and a stop request does not
discard already-queued records: whenever the loop terminates, every record
that was in the queue appears in some emitted batch. -/
theorem claim8_stop_idempotent_no_discard {α : Type} (cfg : Config) :
    (∀ ing : Ingestor α, Ingestor.stop (Ingestor.stop ing) = Ingestor.stop ing) ∧
    (∀ (tEnd : ℚ) (envs : List (StepEnv α)) (s : LoopState α)
        (out : List (EmitEvent α)) (rcd : α),
        runLoop cfg tEnd s envs = some out → rcd ∈ s.queue →
        ∃ ev ∈ out, rcd ∈ ev.batch) := by
  constructor
  · intro ing
    rfl
  · intro tEnd envs s out rcd h hmem
    rcases runLoop_flatten cfg tEnd envs s out h with ⟨used, rest, -, hjoin⟩
    have hrm : rcd ∈ (out.map (fun ev => ev.batch)).flatten := by
      rw [hjoin]
      exact List.mem_append.mpr
        (Or.inl (List.mem_append.mpr (Or.inr hmem)))
    rcases List.mem_flatten.mp hrm with ⟨l, hl, hrl⟩
    rcases List.mem_map.mp hl with ⟨ev, hev, hevb⟩
    exact ⟨ev, hev, hevb ▸ hrl⟩

/-- Witness for C8 on a concrete run: the queued record 9 survives the stop
request and lands in the drained batch. -/
theorem claim8_witness :
    ∃ ev ∈ ([⟨[9], 1, 0, .drain⟩] : List (EmitEvent ℕ)), 9 ∈ ev.batch :=
  (claim8_stop_idempotent_no_discard defaultConfig).2 1
    [⟨[], true, 0, 0, 0, .got⟩] ⟨true, [], [9], 0⟩ [⟨[9], 1, 0, .drain⟩] 9
    (by norm_num [runLoop, stepIter, postTimeCheck, tryBlock, loopCond,
      drainEvents, defaultConfig])
    (by simp)

/-- Claim C9: process_stream re-arms the lifecycle flag - its first step
sets is_running to True unconditionally, so a stop requested before the
stream begins is overwritten (the produced batch stream is identical to one
started without the earlier stop), and without a new stop request the loop
keeps running (it never completes its batch sequence). -/
theorem claim9_rearm_running {α : Type} (cfg : Config) :
    (∀ (ing : Ingestor α) (t0 tEnd : ℚ) (envs : List (StepEnv α)),
        processStream cfg (Ingestor.stop ing) t0 tEnd envs =
          processStream cfg ing t0 tEnd envs) ∧
    (∀ (ing : Ingestor α) (t0 tEnd : ℚ) (envs : List (StepEnv α)),
        (∀ e ∈ envs, e.stop = false) →
        processStream cfg ing t0 tEnd envs = none) := by
  constructor
  · intro ing t0 tEnd envs
    rfl
  · intro ing t0 tEnd envs hstop
    exact runLoop_no_stop_none cfg tEnd envs _ rfl hstop

/-- Witness for C9: a stopped, empty ingestor still yields a running loop
(no completed batch sequence) once process_stream re-arms the flag. -/
theorem claim9_witness :
    processStream defaultConfig (Ingestor.stop (Ingestor.init : Ingestor ℕ))
      0 1 [] = none :=
  (claim9_rearm_running defaultConfig).2 (Ingestor.stop Ingestor.init) 0 1 []
    (by simp)

/-- Counterexample to claim C1 as stated: on a well-timed run the final
drain emits a one-record batch whose size is below BATCH_SIZE_LIMIT and
whose elapsed time since the last flush (1 second) is below
BATCH_TIME_LIMIT, so the emitted-iff-condition biconditional fails for the
drain emission. -/
theorem claim1_counterexample :
    WellTimed defaultConfig (⟨true, [], [3], 0⟩ : LoopState ℕ)
      [⟨[], true, 0, 0, 0, .got⟩] ∧
    runLoop defaultConfig 1 (⟨true, [], [3], 0⟩ : LoopState ℕ)
      [⟨[], true, 0, 0, 0, .got⟩] = some [⟨[3], 1, 0, .drain⟩] ∧
    ¬ emitCond defaultConfig (⟨[3], 1, 0, .drain⟩ : EmitEvent ℕ) := by
  refine ⟨⟨?_, trivial⟩, ?_, ?_⟩
  · intro h hpos
    simp at hpos
  · norm_num [runLoop, stepIter, postTimeCheck, tryBlock, loopCond,
      drainEvents, defaultConfig]
  · norm_num [emitCond, defaultConfig]

/-- Claim C1 (amended): the biconditional holds for every emission produced
inside the emit loop, but not for the final drain.  Emitted-only-if: on any
well-timed run, every batch emitted with a reason other than drain satisfies
the spec condition (size reached, or window elapsed with a non-empty
buffer).  Emitted-if: no trigger condition survives an iteration - the
buffer carried out of an iteration is below BATCH_SIZE_LIMIT and, if
non-empty, its elapsed window time at the iteration's final clock reading is
below BATCH_TIME_LIMIT.  The final drain (see the counterexample) emits the
residual buffer even when neither condition holds. -/
theorem claim1_loop_emission_biconditional {α : Type} (cfg : Config)
    (hB : 0 < cfg.BATCH_SIZE_LIMIT) :
    (∀ (tEnd : ℚ) (envs : List (StepEnv α)) (s : LoopState α)
        (out : List (EmitEvent α)),
        WellTimed cfg s envs → runLoop cfg tEnd s envs = some out →
        ∀ ev ∈ out, ev.reason ≠ .drain → emitCond cfg ev) ∧
    (∀ (s : LoopState α) (e : StepEnv α),
        s.batch.length < cfg.BATCH_SIZE_LIMIT →
        (stepIter cfg s e).1.batch.length < cfg.BATCH_SIZE_LIMIT ∧
        (0 < (stepIter cfg s e).1.batch.length →
          e.tPost - (stepIter cfg s e).1.lastFlush < cfg.BATCH_TIME_LIMIT)) :=
  ⟨fun tEnd envs s out hwt h => runLoop_emitCond cfg tEnd envs s out hwt h,
   fun s e hs =>
     ⟨stepIter_batch_lt cfg s e hB hs,
      fun hpos => stepIter_no_pending cfg s e hpos⟩⟩

/-- Witness for the amended C1: a record arriving after the window has
already elapsed is flushed by the post-append re-check, and the emission
satisfies the spec condition. -/
theorem claim1_witness :
    emitCond defaultConfig (⟨[3], 6, 0, .postCheck⟩ : EmitEvent ℕ) :=
  (claim1_loop_emission_biconditional defaultConfig
      (by norm_num [defaultConfig])).1
    9 [⟨[3], true, 6, 6, 6, .got⟩] ⟨true, [], [], 0⟩ [⟨[3], 6, 0, .postCheck⟩]
    (⟨by intro h hpos; simp at hpos, trivial⟩)
    (by norm_num [runLoop, stepIter, postTimeCheck, tryBlock, loopCond,
      drainEvents, defaultConfig])
    ⟨[3], 6, 0, .postCheck⟩ (List.mem_singleton.mpr rfl) (by simp)

/-- Claim C2: for a stream of BATCH_SIZE_LIMIT + k records (0 < k <
BATCH_SIZE_LIMIT) all obtained faster than the window and followed by a stop
request, the emitted sequence is exactly one size-triggered batch of
BATCH_SIZE_LIMIT records followed, after the drain, by one batch with the
remaining k records. -/
theorem claim2_size_trigger {α : Type} (cfg : Config)
    (hW : 0 < cfg.BATCH_TIME_LIMIT) (k : ℕ) (hk : 0 < k)
    (hkM : k < cfg.BATCH_SIZE_LIMIT) (l : List α)
    (hl : l.length = cfg.BATCH_SIZE_LIMIT + k) (tEnd : ℚ) :
    runLoop cfg tEnd (⟨true, [], l, 0⟩ : LoopState α)
        (List.replicate (cfg.BATCH_SIZE_LIMIT + k) gotStopEnv) =
      some [⟨l.take cfg.BATCH_SIZE_LIMIT, 0, 0, .size⟩,
        ⟨l.drop cfg.BATCH_SIZE_LIMIT, tEnd, 0, .drain⟩] ∧
    (l.take cfg.BATCH_SIZE_LIMIT).length = cfg.BATCH_SIZE_LIMIT ∧
    (l.drop cfg.BATCH_SIZE_LIMIT).length = k := by
  have htake : (l.take cfg.BATCH_SIZE_LIMIT).length = cfg.BATCH_SIZE_LIMIT := by
    rw [List.length_take, hl]
    omega
  have hdrop : (l.drop cfg.BATCH_SIZE_LIMIT).length = k := by
    rw [List.length_drop, hl]
    omega
  refine ⟨?_, htake, hdrop⟩
  have h := runLoop_size_then_fill cfg hW tEnd (l.take cfg.BATCH_SIZE_LIMIT)
    (by intro hnil; rw [hnil] at htake; simp at htake; omega)
    [] (l.drop cfg.BATCH_SIZE_LIMIT) true
    (by simp [htake]) (by rw [hdrop]; exact hk) (by rw [hdrop]; exact hkM)
  rw [List.take_append_drop, htake, hdrop] at h
  simpa using h

/-- Witness for C2: 105 records with the default limits give one batch of
100 and one of 5. -/
theorem claim2_witness :
    runLoop defaultConfig 1 (⟨true, [], List.range 105, 0⟩ : LoopState ℕ)
        (List.replicate (defaultConfig.BATCH_SIZE_LIMIT + 5) gotStopEnv) =
      some [⟨(List.range 105).take defaultConfig.BATCH_SIZE_LIMIT, 0, 0, .size⟩,
        ⟨(List.range 105).drop defaultConfig.BATCH_SIZE_LIMIT, 1, 0, .drain⟩] ∧
    ((List.range 105).take defaultConfig.BATCH_SIZE_LIMIT).length =
      defaultConfig.BATCH_SIZE_LIMIT ∧
    ((List.range 105).drop defaultConfig.BATCH_SIZE_LIMIT).length = 5 :=
  claim2_size_trigger defaultConfig (by norm_num [defaultConfig]) 5
    (by norm_num) (by norm_num [defaultConfig]) (List.range 105)
    (by simp [defaultConfig]) 1

/-- Claim C4: once stop has been requested with m buffered records
(0 < m < BATCH_SIZE_LIMIT), the queue empty and no further input arriving,
the very next iteration settles the stream: exactly one final batch holding
precisely the buffered records is emitted and the sequence terminates
(whatever environment steps might follow are never consumed). -/
theorem claim4_drain_on_stop {α : Type} (cfg : Config) (b : List α) (r : Bool)
    (lf tEnd : ℚ) (e : StepEnv α) (rest : List (StepEnv α))
    (hb : 0 < b.length) (hbM : b.length < cfg.BATCH_SIZE_LIMIT)
    (hput : e.puts = []) (hstop : e.stop = true) :
    ∃ ev : EmitEvent α,
      runLoop cfg tEnd (⟨r, b, [], lf⟩ : LoopState α) (e :: rest) =
        some [ev] ∧ ev.batch = b := by
  rcases hr : r with _ | _
  · refine ⟨⟨b, tEnd, lf, .drain⟩, ?_, rfl⟩
    rw [runLoop_exit cfg tEnd _ _ (by simp [loopCond])]
    unfold drainEvents
    rw [if_pos hb]
  · have hc : loopCond (⟨true, b, [], lf⟩ : LoopState α) = true := by
      simp [loopCond]
    rw [runLoop_cons_run cfg tEnd _ _ _ hc]
    rcases hw : e.wait with _ | _ | _
    · have hstep : stepIter cfg (⟨true, b, [], lf⟩ : LoopState α) e =
          (⟨false, [], [], e.tEmit⟩, [⟨b, e.tEmit, lf, .timeLimit⟩]) := by
        simp [stepIter, postTimeCheck, tryBlock, hw, hput, hstop, hb]
      rw [hstep, runLoop_exit cfg tEnd _ rest (by simp [loopCond])]
      exact ⟨⟨b, e.tEmit, lf, .timeLimit⟩, by simp [drainEvents], rfl⟩
    · have hstep : stepIter cfg (⟨true, b, [], lf⟩ : LoopState α) e =
          (⟨false, [], [], e.tEmit⟩, [⟨b, e.tEmit, lf, .timeLimit⟩]) := by
        simp [stepIter, postTimeCheck, tryBlock, hw, hput, hstop, hb]
      rw [hstep, runLoop_exit cfg tEnd _ rest (by simp [loopCond])]
      exact ⟨⟨b, e.tEmit, lf, .timeLimit⟩, by simp [drainEvents], rfl⟩
    · by_cases hpost : cfg.BATCH_TIME_LIMIT ≤ e.tPost - lf
      · have hstep : stepIter cfg (⟨true, b, [], lf⟩ : LoopState α) e =
            (⟨false, [], [], e.tPost⟩, [⟨b, e.tPost, lf, .postCheck⟩]) := by
          simp [stepIter, postTimeCheck, tryBlock, hw, hput, hstop, hb, hpost]
        rw [hstep, runLoop_exit cfg tEnd _ rest (by simp [loopCond])]
        exact ⟨⟨b, e.tPost, lf, .postCheck⟩, by simp [drainEvents], rfl⟩
      · have hstep : stepIter cfg (⟨true, b, [], lf⟩ : LoopState α) e =
            (⟨false, b, [], lf⟩, []) := by
          simp [stepIter, postTimeCheck, tryBlock, hw, hput, hstop, hpost]
        rw [hstep, runLoop_exit cfg tEnd _ rest (by simp [loopCond])]
        refine ⟨⟨b, tEnd, lf, .drain⟩, ?_, rfl⟩
        simp [drainEvents, hb]

/-- Witness for C4: two buffered records survive a stop request as a single
final batch. -/
theorem claim4_witness :
    ∃ ev : EmitEvent ℕ,
      runLoop defaultConfig 1 (⟨true, [9, 9], [], 0⟩ : LoopState ℕ)
          [⟨[], true, 0, 0, 0, .timedOut⟩] = some [ev] ∧ ev.batch = [9, 9] :=
  claim4_drain_on_stop defaultConfig [9, 9] true 0 1
    ⟨[], true, 0, 0, 0, .timedOut⟩ [] (by simp)
    (by norm_num [defaultConfig]) rfl rfl

/-- Counterexample to claim C5 as stated: a queue-read fault with no stop
request does not terminate the batch sequence - with one record buffered the
run is still inside the loop after the faulted iteration (runLoop yields
none, i.e. the loop keeps going), instead of emitting the residual buffer
and ending the sequence as the claim asserts. -/
theorem claim5_counterexample :
    WellTimed defaultConfig (⟨true, [7], [], 0⟩ : LoopState ℕ) [erroredEnv] ∧
    runLoop defaultConfig 1 (⟨true, [7], [], 0⟩ : LoopState ℕ) [erroredEnv] =
      none := by
  constructor
  · refine ⟨?_, trivial⟩
    intro h hpos
    rcases h with h | ⟨h, -⟩ <;> simp [erroredEnv] at h
  · norm_num [runLoop, stepIter, postTimeCheck, tryBlock, loopCond,
      drainEvents, defaultConfig, erroredEnv]

/-- Claim C5 (amended): an unexpected fault during the queue read is caught
and never propagated to the consumer, but it is not treated as a stop
signal: the faulted iteration leaves the state unchanged (unless the
independent time re-check flushes) and emits nothing, and a run fed only
faulted reads with no stop request never terminates its batch sequence. -/
theorem claim5_fault_suppressed {α : Type} (cfg : Config)
    (hW : 0 < cfg.BATCH_TIME_LIMIT) :
    (∀ (s : LoopState α) (e : StepEnv α),
        e.wait = .errored → e.puts = [] → e.stop = false →
        ¬(0 < s.batch.length ∧ cfg.BATCH_TIME_LIMIT ≤ e.tPost - s.lastFlush) →
        stepIter cfg s e = (s, [])) ∧
    (∀ (n : ℕ) (b : List α) (tEnd : ℚ),
        runLoop cfg tEnd (⟨true, b, [], 0⟩ : LoopState α)
          (List.replicate n erroredEnv) = none) := by
  constructor
  · intro s e hw hput hstop hpost
    simp [stepIter, postTimeCheck, tryBlock, hw, hput, hstop, hpost]
  · intro n
    induction n with
    | zero =>
      intro b tEnd
      exact runLoop_nil_run cfg tEnd _ (by simp [loopCond])
    | succ m ih =>
      intro b tEnd
      rw [List.replicate_succ,
        runLoop_cons_run cfg tEnd _ _ _ (by simp [loopCond])]
      have hpost : ¬(cfg.BATCH_TIME_LIMIT ≤ (0:ℚ)) := by linarith
      have hstep : stepIter cfg (⟨true, b, [], 0⟩ : LoopState α) erroredEnv =
          (⟨true, b, [], 0⟩, []) := by
        simp [stepIter, postTimeCheck, tryBlock, erroredEnv, hpost]
      rw [hstep, ih b tEnd]
      rfl

/-- Witness for the amended C5: two consecutive faulted reads leave the loop
running. -/
theorem claim5_witness :
    runLoop defaultConfig 1 (⟨true, [7], [], 0⟩ : LoopState ℕ)
      (List.replicate 2 erroredEnv) = none :=
  (claim5_fault_suppressed defaultConfig (by norm_num [defaultConfig])).2 2
    [7] 1

/-- Claim C10: an empty-buffer timeout leaves last_flush_time (and the empty
buffer) untouched and emits nothing, so the window is not re-armed while
idle; consequently, when the first record arrives after the window has
already elapsed since the last flush, the post-append re-check emits it
immediately as a batch of size one. -/
theorem claim10_idle_window {α : Type} (cfg : Config) :
    (∀ (s : LoopState α) (e : StepEnv α),
        s.batch = [] → e.wait = .timedOut →
        (stepIter cfg s e).1.lastFlush = s.lastFlush ∧
        (stepIter cfg s e).2 = [] ∧ (stepIter cfg s e).1.batch = []) ∧
    (∀ (run : Bool) (lf : ℚ) (x : α) (e : StepEnv α),
        e.puts = [x] → e.wait = .got → 1 < cfg.BATCH_SIZE_LIMIT →
        cfg.BATCH_TIME_LIMIT ≤ e.tPost - lf →
        stepIter cfg (⟨run, [], [], lf⟩ : LoopState α) e =
          (⟨run && !e.stop, [], [], e.tPost⟩,
            [⟨[x], e.tPost, lf, .postCheck⟩])) := by
  constructor
  · intro s e hbatch hw
    simp [stepIter, postTimeCheck, tryBlock, hw, hbatch]
  · intro run lf x e hput hw hB hpost
    have hsize : ¬(cfg.BATCH_SIZE_LIMIT ≤ 1) := by omega
    simp [stepIter, postTimeCheck, tryBlock, hw, hput, hsize, hpost]

/-- Witness for C10: a record arriving 6 time units after the last flush is
emitted at once as a singleton batch by the re-check. -/
theorem claim10_witness :
    stepIter defaultConfig (⟨true, [], [], 0⟩ : LoopState ℕ)
        ⟨[42], false, 6, 6, 6, .got⟩ =
      (⟨true, [], [], 6⟩, [⟨[42], 6, 0, .postCheck⟩]) :=
  (claim10_idle_window defaultConfig).2 true 0 42 ⟨[42], false, 6, 6, 6, .got⟩
    rfl rfl (by norm_num [defaultConfig]) (by norm_num [defaultConfig])

end IncidentIngestor
